import Mathlib

/-
Verification of the cmd-menu-config polymorphic config tree.

The definitions below are a shallow embedding of `src/__init__.py`:
decoded JSON values become the inductive `Json` (mutually with `JsonArr`
for Python lists and `JsonObj` for Python dicts, whose entries are kept
in insertion order, as CPython dicts do), classes become structures or
inductive variants, and methods become functions.  External effects are
made explicit: the process-level command runner (`subprocess.getoutput`)
is a function parameter `Runner`, and every construction that may run
commands also returns the list of command lines it passed to the runner,
in invocation order.  Fallible constructors return `Except PyError`,
where `PyError.typeError` models a Python `TypeError` with its message.
-/

/-- The external command-runner capability (`subprocess.getoutput`):
takes a command line, returns the captured output text. -/
abbrev Runner := String → String

/-- A raised Python `TypeError` carrying its message. -/
inductive PyError where
  | typeError (msg : String)
deriving DecidableEq, Repr

mutual
/-- A decoded JSON value as the Python code sees it after `json.load`:
a string, an int, a bool, `None`, a list, or a dict. -/
inductive Json where
  | str (s : String)
  | num (n : Int)
  | bool (b : Bool)
  | null
  | arr (items : JsonArr)
  | obj (entries : JsonObj)

/-- A Python list of decoded JSON values. -/
inductive JsonArr where
  | nil
  | cons (head : Json) (tail : JsonArr)

/-- A Python dict of decoded JSON values, in insertion order.  Decoded
dicts always have distinct keys; `dictInsert` below preserves this. -/
inductive JsonObj where
  | nil
  | cons (key : String) (value : Json) (tail : JsonObj)
end

deriving instance DecidableEq for Json
deriving instance DecidableEq for JsonArr
deriving instance DecidableEq for JsonObj

/-- The elements of a Python list, as a Lean list. -/
def JsonArr.toList : JsonArr → List Json
  | .nil => []
  | .cons h t => h :: t.toList

/-- Python `key in dict`. -/
def JsonObj.hasKey : JsonObj → String → Bool
  | .nil, _ => false
  | .cons k _ t, q => if k = q then true else t.hasKey q

/-- Replace the value stored at an existing key, keeping its position
(CPython dict assignment on a present key). -/
def JsonObj.setKey : JsonObj → String → Json → JsonObj
  | .nil, _, _ => .nil
  | .cons k v t, q, nv => if k = q then .cons k nv t else .cons k v (t.setKey q nv)

/-- Concatenation of two dicts (used to reason about repeated appends). -/
def JsonObj.append : JsonObj → JsonObj → JsonObj
  | .nil, b => b
  | .cons k v t, b => .cons k v (t.append b)

/-- Python dict assignment `d[k] = v`: overwrite in place if the key is
present, otherwise append a new entry at the end. -/
def dictInsert (d : JsonObj) (k : String) (v : Json) : JsonObj :=
  if d.hasKey k then d.setKey k v else d.append (.cons k v .nil)

/-- Python slicing `s[-n:]` (the last `n` characters; the whole string
when it is shorter), by characters. -/
def strTakeRight (s : String) (n : Nat) : String :=
  ⟨s.data.drop (s.data.length - n)⟩

/-- Python slicing `s[:-n]` (everything but the last `n` characters), by
characters. -/
def strDropRight (s : String) (n : Nat) : String :=
  ⟨s.data.take (s.data.length - n)⟩

/-- Python `s.lower()`, character-wise (the ASCII fragment, which is all
the source exercises: the suffix compared against is `"&read"`). -/
def strLower (s : String) : String :=
  ⟨s.data.map Char.toLower⟩

mutual
/-- Python `repr` of a decoded JSON value (the conversion `str` applies
inside lists and dicts).  Strings are modelled for the common case of no
quote or control characters, which is all the source ever formats. -/
def pyRepr : Json → String
  | .str s => "\x27" ++ s ++ "\x27"
  | .num n => toString n
  | .bool b => if b then "True" else "False"
  | .null => "None"
  | .arr xs => "[" ++ pyReprArr xs ++ "]"
  | .obj kvs => "\x7b" ++ pyReprObj kvs ++ "\x7d"

/-- Comma-separated `repr`s of list elements. -/
def pyReprArr : JsonArr → String
  | .nil => ""
  | .cons h .nil => pyRepr h
  | .cons h t => pyRepr h ++ ", " ++ pyReprArr t

/-- Comma-separated `repr`s of dict entries. -/
def pyReprObj : JsonObj → String
  | .nil => ""
  | .cons k v .nil => "\x27" ++ k ++ "\x27: " ++ pyRepr v
  | .cons k v t => "\x27" ++ k ++ "\x27: " ++ pyRepr v ++ ", " ++ pyReprObj t
end

/-- Python `str()` of a decoded JSON value, as used by f-strings:
identical to `repr` except on strings, which are taken verbatim. -/
def pyStr : Json → String
  | .str s => s
  | j => pyRepr j

/-- Python `f"{type(data)}"`. -/
def pyType : Json → String
  | .str _ => "<class \x27str\x27>"
  | .num _ => "<class \x27int\x27>"
  | .bool _ => "<class \x27bool\x27>"
  | .null => "<class \x27NoneType\x27>"
  | .arr _ => "<class \x27list\x27>"
  | .obj _ => "<class \x27dict\x27>"

/-- The bare Python type name, as it appears in iteration errors. -/
def pyTypeName : Json → String
  | .str _ => "str"
  | .num _ => "int"
  | .bool _ => "bool"
  | .null => "NoneType"
  | .arr _ => "list"
  | .obj _ => "dict"

/-- Python iteration `for item in data`: a string yields its characters,
a list its elements, a dict its keys; anything else raises `TypeError`. -/
def pyIter : Json → Except PyError (List Json)
  | .str s => .ok (s.data.map fun c => .str (String.singleton c))
  | .arr xs => .ok xs.toList
  | .obj kvs => .ok (pyIterKeys kvs)
  | j => .error (.typeError ("\x27" ++ pyTypeName j ++ "\x27 object is not iterable"))
where
  /-- Dict keys, as string values. -/
  pyIterKeys : JsonObj → List Json
    | .nil => []
    | .cons k _ t => .str k :: pyIterKeys t

/-- `CmdTextLine` (src/__init__.py:316-368): one line of a text block,
holding the raw entry it was built from and its last computed text. -/
structure TextLine where
  origin : Json
  text : List String
deriving DecidableEq

/-- The command lines a dict-origin line passes to the runner, one per
key in insertion order: `f"{key} {self.origin[key]}"`. -/
def objCmdLines : JsonObj → List String
  | .nil => []
  | .cons k v t => (k ++ " " ++ pyStr v) :: objCmdLines t

/-- `CmdTextLine.update` (src/__init__.py:342-354): recompute the text
from the origin.  Takes the current `self.text` and returns the new text
together with the command lines passed to the runner (a string origin
runs nothing; a dict origin runs one command per key; any other origin
leaves the text unchanged and runs nothing). -/
def CmdTextLine.update (r : Runner) (origin : Json) (text : List String) :
    List String × List String :=
  match origin with
  | .str s => ([s], [])
  | .obj kvs => ((objCmdLines kvs).map r, objCmdLines kvs)
  | _ => (text, [])

/-- `CmdTextLine.__init__` (src/__init__.py:331-340): store the entry as
`origin` and immediately call `update` (so a dict origin already runs
its commands here).  Returns the line and the invoked command lines. -/
def CmdTextLine (r : Runner) (entry : Json) : TextLine × List String :=
  let p := CmdTextLine.update r entry []
  ({ origin := entry, text := p.1 }, p.2)

/-- `CmdTextLine.__str__` (src/__init__.py:361-368): call `update`, then
join the text lines with newlines.  Returns the rendered string, the
line with its refreshed `text`, and the invoked command lines. -/
def CmdTextLine.str (r : Runner) (l : TextLine) : String × TextLine × List String :=
  let p := CmdTextLine.update r l.origin l.text
  (String.intercalate "\n" p.1, { l with text := p.1 }, p.2)

/-- `CmdTextLine.to_json_obj` (src/__init__.py:356-359). -/
def CmdTextLine.to_json_obj (l : TextLine) : Option String × Json :=
  (none, l.origin)

mutual
/-- The config-node tree: `CmdEntryConfig`, `CmdTextConfig` and
`CmdMenuConfig` objects (all subclasses of `ConfigObject`). -/
inductive ConfigNode where
  | entry (key : Option String) (cmd : String) (read : Bool)
  | textBlock (key : Option String) (lines : List TextLine)
  | menu (key : Option String) (items : NodeList)

/-- The `items` list of a menu. -/
inductive NodeList where
  | nil
  | cons (head : ConfigNode) (tail : NodeList)
end

deriving instance DecidableEq for ConfigNode
deriving instance DecidableEq for NodeList

/-- `CmdEntryConfig.__init__` (src/__init__.py:387-400): lowercase the
command, compare its last five characters with `"&read"`; on a match
strip the last five characters of the original and set the read flag. -/
def CmdEntryConfig (key : Option String) (data : String) : ConfigNode :=
  if strTakeRight (strLower data) 5 = "&read" then
    .entry key (strDropRight data 5) true
  else
    .entry key data false

/-- Build the text lines of a block from the iterated items, collecting
the command lines invoked while constructing them (the loop body
`self.lines.append(CmdTextConfig.listitem_to_textline(item))`). -/
def mkLines (r : Runner) : List Json → List TextLine × List String
  | [] => ([], [])
  | e :: rest =>
      let p := CmdTextLine r e
      let q := mkLines r rest
      (p.1 :: q.1, p.2 ++ q.2)

/-- `CmdTextConfig.__init__` (src/__init__.py:274-278): iterate over the
data (no type check of its own — only the iteration itself can fail) and
turn each item into a `CmdTextLine`. -/
def CmdTextConfig (r : Runner) (key : Option String) (data : Json) :
    Except PyError (ConfigNode × List String) :=
  match pyIter data with
  | .error e => .error e
  | .ok items =>
      let p := mkLines r items
      .ok (.textBlock key p.1, p.2)

mutual
/-- `ConfigObject.from_json_obj` (src/__init__.py:173-201): dispatch on
the runtime type of the JSON value — string to `CmdEntryConfig`, list to
`CmdTextConfig`, dict to `CmdMenuConfig`, anything else raises
`TypeError(f"Invalid json object: \x7bjson_obj\x7d")`. -/
def ConfigObject.from_json_obj (r : Runner) (key : Option String) (json_obj : Json) :
    Except PyError (ConfigNode × List String) :=
  match json_obj with
  | .str s => .ok (CmdEntryConfig key s, [])
  | .arr xs => CmdTextConfig r key (.arr xs)
  | .obj kvs =>
      match parseObj r kvs with
      | .error e => .error e
      | .ok p => .ok (.menu key p.1, p.2)
  | j => .error (.typeError ("Invalid json object: " ++ pyStr j))

/-- The loop in `CmdMenuConfig.__init__` (src/__init__.py:230-232): for
each dict entry in order, parse the value with its key and append the
resulting item; the first failure aborts the whole construction. -/
def parseObj (r : Runner) : JsonObj → Except PyError (NodeList × List String)
  | .nil => .ok (.nil, [])
  | .cons k v rest =>
      match ConfigObject.from_json_obj r (some k) v with
      | .error e => .error e
      | .ok p =>
          match parseObj r rest with
          | .error e => .error e
          | .ok q => .ok (.cons p.1 q.1, p.2 ++ q.2)
end

/-- `CmdMenuConfig.__init__` (src/__init__.py:218-234): require a dict
(else `TypeError(f"Invalid data type: \x7btype(data)\x7d")`) and parse
each entry into an item. -/
def CmdMenuConfig (r : Runner) (key : Option String) (data : Json) :
    Except PyError (ConfigNode × List String) :=
  match data with
  | .obj kvs =>
      match parseObj r kvs with
      | .error e => .error e
      | .ok p => .ok (.menu key p.1, p.2)
  | j => .error (.typeError ("Invalid data type: " ++ pyType j))

/-- The origins of a block's lines, as the JSON array
`list(map(lambda l: l.to_json_obj()[1], self.lines))`. -/
def originsArr : List TextLine → JsonArr
  | [] => .nil
  | l :: rest => .cons l.origin (originsArr rest)

mutual
/-- `to_json_obj` of each node class (src/__init__.py:236-247, 288-291,
402-408): an entry re-appends `"&read"` when its read flag is set, a
text block serializes its lines' origins, and a menu rebuilds a dict
from its serialized items via `content[key] = value`. -/
def ConfigObject.to_json_obj : ConfigNode → Option String × Json
  | .entry key cmd rd => (key, .str (if rd then cmd ++ "&read" else cmd))
  | .textBlock key lines => (key, .arr (originsArr lines))
  | .menu key items => (key, .obj (serItems items .nil))

/-- The serialization loop of `CmdMenuConfig.to_json_obj`
(src/__init__.py:243-246), threading the dict built so far.  A `None`
key would be written as the JSON key `"null"` by `json.dump`; parsed
menu items always carry string keys. -/
def serItems : NodeList → JsonObj → JsonObj
  | .nil, content => content
  | .cons item rest, content =>
      let kv := ConfigObject.to_json_obj item
      serItems rest (dictInsert content (kv.1.getD "null") kv.2)
end

/-- `CmdConfigBase` state (src/__init__.py:26-128): the config-file path
and the currently installed root menu. -/
structure CmdConfig where
  file_path : Option String
  root_menu : ConfigNode
deriving DecidableEq

/-- The external filesystem, as far as `reload` observes it: a path
either names a readable text resource or does not exist. -/
abbrev FileSys := String → Option String

/-- The external `json.loads`/`json.load` capability: decode JSON text
or raise (`MalformedJson` comes from this layer, not the core). -/
abbrev JsonDecode := String → Except PyError Json

/-- The external `json.dumps`/`json.dump` capability: encode a value as
JSON text with the given indentation. -/
abbrev JsonEncode := Json → Nat → String

/-- `CmdConfigBase._from_json_obj` (src/__init__.py:64-79): a dict
replaces the root with `CmdMenuConfig(None, json_obj)`; anything else
raises `TypeError(f"Invalid json object: \x7bjson_obj\x7d")`.  The
result is the raised-or-not status, the state after the call, and the
command lines invoked while building the new tree. -/
def CmdConfigBase._from_json_obj (r : Runner) (cfg : CmdConfig) (json_obj : Json) :
    Except PyError Unit × CmdConfig × List String :=
  match json_obj with
  | .obj kvs =>
      match CmdMenuConfig r none (.obj kvs) with
      | .error e => (.error e, cfg, [])
      | .ok p => (.ok (), { cfg with root_menu := p.1 }, p.2)
  | j => (.error (.typeError ("Invalid json object: " ++ pyStr j)), cfg, [])

/-- `CmdConfigBase._generate_empty_config` (src/__init__.py:121-128):
install `CmdMenuConfig(None, {"T1": "(No commands configured)"})`. -/
def CmdConfigBase._generate_empty_config (r : Runner) (cfg : CmdConfig) :
    Except PyError Unit × CmdConfig × List String :=
  match CmdMenuConfig r none (.obj (.cons "T1" (.str "(No commands configured)") .nil)) with
  | .error e => (.error e, cfg, [])
  | .ok p => (.ok (), { cfg with root_menu := p.1 }, p.2)

/-- `CmdConfigBase.reload` (src/__init__.py:81-90): with no path or a
nonexistent path, generate the empty config; otherwise read the file,
decode it and hand the value to `_from_json_obj`. -/
def CmdConfigBase.reload (fs : FileSys) (dec : JsonDecode) (r : Runner) (cfg : CmdConfig) :
    Except PyError Unit × CmdConfig × List String :=
  match cfg.file_path with
  | none => CmdConfigBase._generate_empty_config r cfg
  | some p =>
      match fs p with
      | none => CmdConfigBase._generate_empty_config r cfg
      | some text =>
          match dec text with
          | .error e => (.error e, cfg, [])
          | .ok data => CmdConfigBase._from_json_obj r cfg data

/-- `CmdConfigBase.loads` (src/__init__.py:92-96): decode the given text
and hand the value to `_from_json_obj`; the file path is not consulted. -/
def CmdConfigBase.loads (dec : JsonDecode) (r : Runner) (cfg : CmdConfig) (json_str : String) :
    Except PyError Unit × CmdConfig × List String :=
  match dec json_str with
  | .error e => (.error e, cfg, [])
  | .ok data => CmdConfigBase._from_json_obj r cfg data

/-- `CmdConfigBase._to_json_obj` (src/__init__.py:53-62):
`self.root_menu.to_json_obj()[1]`. -/
def CmdConfigBase._to_json_obj (cfg : CmdConfig) : Json :=
  (ConfigObject.to_json_obj cfg.root_menu).2

/-- `CmdConfigBase.save` (src/__init__.py:98-111): with no path raise
`TypeError("No file path specified")`; otherwise overwrite the file at
the path with the JSON encoding of the serialized root. -/
def CmdConfigBase.save (fs : FileSys) (enc : JsonEncode) (cfg : CmdConfig) (indent : Nat) :
    Except PyError Unit × FileSys :=
  match cfg.file_path with
  | none => (.error (.typeError "No file path specified"), fs)
  | some p =>
      (.ok (), fun q => if q = p then some (enc (CmdConfigBase._to_json_obj cfg) indent) else fs q)

/-- `CmdConfigBase.saves` (src/__init__.py:113-119): return the JSON
encoding of the serialized root; the file path plays no part. -/
def CmdConfigBase.saves (enc : JsonEncode) (cfg : CmdConfig) (indent : Nat) : String :=
  enc (CmdConfigBase._to_json_obj cfg) indent

/-- Is a decoded JSON value a string? -/
def Json.isStr : Json → Bool
  | .str _ => true
  | _ => false

/-- Is a decoded JSON value iterable in Python (string, list or dict)? -/
def Json.pyIterable : Json → Bool
  | .str _ => true
  | .arr _ => true
  | .obj _ => true
  | _ => false

/-- Are all values of a dict strings (a string-to-string mapping)? -/
def allStrValues : JsonObj → Bool
  | .nil => true
  | .cons _ v t => v.isStr && allStrValues t

/-- A well-formed line-spec per the persisted-format grammar: a literal
string or a string-to-string mapping. -/
def wfLine : Json → Bool
  | .str _ => true
  | .obj kvs => allStrValues kvs
  | _ => false

mutual
/-- A well-formed node-spec per the persisted-format grammar: a command
string, an array of line-specs, or an object of node-specs.  Objects
stand for decoded Python dicts, so their keys are distinct. -/
def wfNode : Json → Bool
  | .str _ => true
  | .arr xs => wfLines xs
  | .obj kvs => wfMenu kvs
  | _ => false

/-- Every element is a well-formed line-spec. -/
def wfLines : JsonArr → Bool
  | .nil => true
  | .cons e t => wfLine e && wfLines t

/-- Every value is a well-formed node-spec and the keys are distinct. -/
def wfMenu : JsonObj → Bool
  | .nil => true
  | .cons k v t => wfNode v && !t.hasKey k && wfMenu t
end

/-- The command lines construction of one text line invokes: none for a
string origin, one per key for a dict origin. -/
def cmdsOfLine : Json → List String
  | .obj kvs => objCmdLines kvs
  | _ => []

/-- `cmdsOfLine` summed over a list of entries. -/
def listCmds : List Json → List String
  | [] => []
  | e :: t => cmdsOfLine e ++ listCmds t

mutual
/-- All command lines parsing a node-spec invokes, in invocation order:
one per key of each dict-origin text line, depth-first. -/
def cmdsOfNode : Json → List String
  | .arr xs => cmdsOfLines xs
  | .obj kvs => cmdsOfMenu kvs
  | _ => []

/-- `cmdsOfNode` over the lines of a text block. -/
def cmdsOfLines : JsonArr → List String
  | .nil => []
  | .cons e t => cmdsOfLine e ++ cmdsOfLines t

/-- `cmdsOfNode` over the entries of a menu. -/
def cmdsOfMenu : JsonObj → List String
  | .nil => []
  | .cons _ v t => cmdsOfNode v ++ cmdsOfMenu t
end

/-- The `&read`-suffix normalization serialization applies to a command
string: a string whose lowercased last five characters are `"&read"`
comes back with those five characters replaced by the lowercase literal
`"&read"`; every other string is unchanged. -/
def normCmd (s : String) : String :=
  if strTakeRight (strLower s) 5 = "&read" then strDropRight s 5 ++ "&read" else s

mutual
/-- The only change a parse/serialize round trip makes to a well-formed
node-spec: command-string positions are `normCmd`-normalized; array
elements (text-line origins) and everything else are untouched. -/
def readNormalize : Json → Json
  | .str s => .str (normCmd s)
  | .arr xs => .arr xs
  | .obj kvs => .obj (readNormalizeObj kvs)
  | j => j

/-- `readNormalize` over the entries of a menu object. -/
def readNormalizeObj : JsonObj → JsonObj
  | .nil => .nil
  | .cons k v t => .cons k (readNormalize v) (readNormalizeObj t)
end

theorem strDropRight_append_takeRight (s : String) (n : Nat) :
    strDropRight s n ++ strTakeRight s n = s := by
  cases s with
  | mk l =>
    show String.mk (l.take (l.length - n) ++ l.drop (l.length - n)) = String.mk l
    rw [List.take_append_drop]

theorem strTakeRight_strLower (s : String) (n : Nat) :
    strTakeRight (strLower s) n = strLower (strTakeRight s n) := by
  cases s with
  | mk l =>
    show String.mk ((l.map Char.toLower).drop ((l.map Char.toLower).length - n)) =
      String.mk ((l.drop (l.length - n)).map Char.toLower)
    rw [List.length_map, List.map_drop]

theorem normCmd_of_lower_suffix (s : String) (h : strTakeRight s 5 = "&read") :
    normCmd s = s := by
  have h2 : strTakeRight (strLower s) 5 = "&read" := by
    rw [strTakeRight_strLower, h]; decide
  rw [normCmd, if_pos h2, ← h, strDropRight_append_takeRight]

theorem normCmd_of_no_suffix (s : String) (h : strLower (strTakeRight s 5) ≠ "&read") :
    normCmd s = s := by
  rw [normCmd, if_neg]
  rwa [strTakeRight_strLower]

theorem entry_to_json (k : Option String) (s : String) :
    ConfigObject.to_json_obj (CmdEntryConfig k s) = (k, .str (normCmd s)) := by
  unfold CmdEntryConfig normCmd
  split <;> rfl

theorem JsonObj.append_nil : (a : JsonObj) → a.append .nil = a
  | .nil => rfl
  | .cons k v t => by simp [JsonObj.append, JsonObj.append_nil t]

theorem JsonObj.append_assoc : (a b c : JsonObj) →
    (a.append b).append c = a.append (b.append c)
  | .nil, _, _ => rfl
  | .cons k v t, b, c => by simp [JsonObj.append, JsonObj.append_assoc t b c]

theorem JsonObj.hasKey_append : (a b : JsonObj) → (q : String) →
    (a.append b).hasKey q = (a.hasKey q || b.hasKey q)
  | .nil, _, _ => rfl
  | .cons k v t, b, q => by
    simp only [JsonObj.append, JsonObj.hasKey, JsonObj.hasKey_append t b q]
    split <;> simp

theorem dictInsert_fresh (d : JsonObj) (k : String) (v : Json) (h : d.hasKey k = false) :
    dictInsert d k v = d.append (.cons k v .nil) := by
  rw [dictInsert, if_neg]
  simp [h]

theorem CmdTextLine_spec (r : Runner) (e : Json) :
    CmdTextLine r e = ({ origin := e, text := (CmdTextLine.update r e []).1 }, cmdsOfLine e) := by
  cases e <;> rfl

theorem mkLines_arr_spec (r : Runner) : (xs : JsonArr) →
    ∃ lines, mkLines r xs.toList = (lines, cmdsOfLines xs) ∧ originsArr lines = xs
  | .nil => ⟨[], rfl, rfl⟩
  | .cons e t => by
    obtain ⟨ls, h1, h2⟩ := mkLines_arr_spec r t
    refine ⟨(CmdTextLine r e).1 :: ls, ?_, ?_⟩
    · simp [JsonArr.toList, mkLines, h1, CmdTextLine_spec, cmdsOfLines]
    · simp [originsArr, CmdTextLine_spec, h2]

mutual
/-- Parsing a well-formed node-spec succeeds, invokes exactly the
command lines of its dict-origin text lines, and serializes back to the
`normCmd`-normalized value. -/
theorem parse_spec (r : Runner) (k : Option String) : (v : Json) → wfNode v = true →
    ∃ node, ConfigObject.from_json_obj r k v = Except.ok (node, cmdsOfNode v) ∧
      ConfigObject.to_json_obj node = (k, readNormalize v)
  | .str s, _ => ⟨CmdEntryConfig k s, rfl, entry_to_json k s⟩
  | .arr xs, _ => by
    obtain ⟨lines, h1, h2⟩ := mkLines_arr_spec r xs
    refine ⟨.textBlock k lines, ?_, ?_⟩
    · simp [ConfigObject.from_json_obj, CmdTextConfig, pyIter, h1, cmdsOfNode]
    · simp [ConfigObject.to_json_obj, h2, readNormalize]
  | .obj kvs, h => by
    have hm : wfMenu kvs = true := by simpa [wfNode] using h
    obtain ⟨items, hp, hser⟩ := parse_obj_spec r kvs hm
    refine ⟨.menu k items, ?_, ?_⟩
    · simp [ConfigObject.from_json_obj, hp, cmdsOfNode]
    · have h0 := hser .nil (fun q _ => rfl)
      simp only [ConfigObject.to_json_obj, h0, JsonObj.append, readNormalize]

/-- Parsing the entries of a well-formed menu object succeeds, invokes
the commands of the entries in order, and re-serializing the items onto
any dict whose keys are disjoint appends the normalized entries. -/
theorem parse_obj_spec (r : Runner) : (kvs : JsonObj) → wfMenu kvs = true →
    ∃ items, parseObj r kvs = Except.ok (items, cmdsOfMenu kvs) ∧
      ∀ content, (∀ q, kvs.hasKey q = true → content.hasKey q = false) →
        serItems items content = content.append (readNormalizeObj kvs)
  | .nil, _ =>
    ⟨.nil, rfl, fun content _ => by
      simp [serItems, readNormalizeObj, JsonObj.append_nil]⟩
  | .cons kk vv rest, h => by
    have hsplit : (wfNode vv = true ∧ rest.hasKey kk = false) ∧ wfMenu rest = true := by
      simpa [wfMenu, Bool.and_eq_true, Bool.not_eq_true'] using h
    obtain ⟨⟨h1, h2⟩, h3⟩ := hsplit
    obtain ⟨n, hp1, hs1⟩ := parse_spec r (some kk) vv h1
    obtain ⟨ns, hp2, hs2⟩ := parse_obj_spec r rest h3
    refine ⟨.cons n ns, ?_, ?_⟩
    · simp [parseObj, hp1, hp2, cmdsOfMenu]
    · intro content hdisj
      have hck : content.hasKey kk = false := hdisj kk (by simp [JsonObj.hasKey])
      have step : serItems (.cons n ns) content =
          serItems ns (content.append (.cons kk (readNormalize vv) .nil)) := by
        simp [serItems, hs1, dictInsert_fresh _ _ _ hck]
      rw [step, hs2 _ ?_]
      · rw [JsonObj.append_assoc]
        rfl
      · intro q hq
        have hkq : ¬ kk = q := by
          intro he
          rw [he, hq] at h2
          exact absurd h2 (by simp)
        have hcq : content.hasKey q = false := by
          refine hdisj q ?_
          simp [JsonObj.hasKey, hq, if_neg hkq]
        rw [JsonObj.hasKey_append, hcq]
        simp [JsonObj.hasKey, hkq]
end

/-- A concrete runner for witnesses and counterexamples. -/
def outRunner : Runner := fun _ => "out"

/-- A concrete well-formed node-spec exercising all three variants and a
mixed-case `&READ` suffix. -/
def wVal : Json :=
  .obj (.cons "A" (.str "dir&READ")
    (.cons "B" (.arr (.cons (.str "line") (.cons (.obj (.cons "echo" (.str "hi") .nil)) .nil)))
      (.cons "C" (.obj (.cons "D" (.str "ls") .nil)) .nil)))

/-- A text block with one dict-origin line (a dynamic text line). -/
def dynVal : Json := .arr (.cons (.obj (.cons "echo" (.str "hi") .nil)) .nil)

/-- C1: for every well-formed node-spec `v` and key `k`, serializing the
node parsed from `(k, v)` returns `(k, v)` with every command string
`normCmd`-normalized — and `normCmd` changes nothing unless the string
carries a case-insensitive `&read` suffix with non-lowercase casing, in
which case the suffix comes back as the lowercase literal `&read`. -/
theorem c1_roundtrip (r : Runner) (k : Option String) (v : Json) (h : wfNode v = true) :
    (ConfigObject.from_json_obj r k v).map (fun p => ConfigObject.to_json_obj p.1) =
      Except.ok (k, readNormalize v) ∧
    (∀ s, strTakeRight s 5 = "&read" → normCmd s = s) ∧
    (∀ s, strLower (strTakeRight s 5) ≠ "&read" → normCmd s = s) := by
  refine ⟨?_, normCmd_of_lower_suffix, normCmd_of_no_suffix⟩
  obtain ⟨n, hp, hs⟩ := parse_spec r k v h
  simp [hp, Except.map, hs]

/-- C1 witness: the round trip evaluated on a concrete tree. -/
theorem c1_roundtrip_witness :
    wfNode wVal = true ∧
    (ConfigObject.from_json_obj outRunner (some "menu") wVal).map
      (fun p => ConfigObject.to_json_obj p.1) = Except.ok (some "menu", readNormalize wVal) :=
  ⟨by decide, (c1_roundtrip outRunner (some "menu") wVal (by decide)).1⟩

/-- C2: entry construction compares the lowercased last five characters
with `&read`; on a match it stores the raw string with exactly those
five characters stripped (original casing elsewhere retained) and sets
the read flag, otherwise it stores the string unchanged with the flag
clear; in particular for `"echo hi&READ"` and `"echo hi&reading"`. -/
theorem c2_entry_suffix (k : Option String) (data : String) :
    (strLower (strTakeRight data 5) = "&read" →
      CmdEntryConfig k data = .entry k (strDropRight data 5) true) ∧
    (strLower (strTakeRight data 5) ≠ "&read" →
      CmdEntryConfig k data = .entry k data false) ∧
    CmdEntryConfig k "echo hi&READ" = .entry k "echo hi" true ∧
    CmdEntryConfig k "echo hi&reading" = .entry k "echo hi&reading" false := by
  refine ⟨?_, ?_, rfl, rfl⟩
  · intro h
    have h2 : strTakeRight (strLower data) 5 = "&read" := by rwa [strTakeRight_strLower]
    simp [CmdEntryConfig, h2]
  · intro h
    have h2 : ¬ strTakeRight (strLower data) 5 = "&read" := by rwa [strTakeRight_strLower]
    simp [CmdEntryConfig, h2]

/-- C2 witness: the suffix branch evaluated on a concrete command. -/
theorem c2_entry_suffix_witness :
    strLower (strTakeRight "echo hello&READ" 5) = "&read" ∧
    CmdEntryConfig (some "w") "echo hello&READ" = .entry (some "w") "echo hello" true :=
  ⟨by decide, (c2_entry_suffix (some "w") "echo hello&READ").1 (by decide)⟩

/-- C3 counterexample: parsing a text block with a dict-origin line
already invokes its command (`"echo hi"`) during construction, because
`CmdTextLine.__init__` calls `update`; the invocation list is not
empty, contradicting "never during parse/construction". -/
theorem c3_counterexample :
    (ConfigObject.from_json_obj outRunner (some "k") dynVal).map Prod.snd =
      Except.ok ["echo hi"] ∧ (["echo hi"] : List String) ≠ [] :=
  ⟨rfl, by decide⟩

/-- C3 amended: parsing a well-formed JSON value constructs the tree and
eagerly invokes the external command of every dict-origin text line
exactly once, in order, during construction (rendering re-invokes them
again later); the commands are not deferred to render time. -/
theorem c3_amended (r : Runner) (k : Option String) (v : Json) (h : wfNode v = true) :
    (ConfigObject.from_json_obj r k v).map Prod.snd = Except.ok (cmdsOfNode v) := by
  obtain ⟨n, hp, _⟩ := parse_spec r k v h
  simp [hp, Except.map]

/-- C3 amended witness: the construction-time invocations on a concrete
dynamic text line. -/
theorem c3_amended_witness :
    wfNode dynVal = true ∧
    (ConfigObject.from_json_obj outRunner (some "k") dynVal).map Prod.snd =
      Except.ok (cmdsOfNode dynVal) :=
  ⟨by decide, c3_amended outRunner (some "k") dynVal (by decide)⟩

/-- C4 counterexample: a dict is not an array, yet constructing a text
block from it succeeds (Python iterates the dict's keys), instead of
failing with `InvalidTextBlockData` as claimed. -/
theorem c4_counterexample :
    CmdTextConfig outRunner (some "k") (.obj (.cons "a" (.str "b") .nil)) =
      Except.ok (.textBlock (some "k") [⟨.str "a", ["a"]⟩], []) := rfl

/-- C4 amended: text-block construction performs no array check; it
iterates the value, so strings (per character), dicts (per key) and
arrays are all accepted, and only non-iterable values (number, bool,
null) fail — with Python's iteration `TypeError`, not a dedicated
text-block error. -/
theorem c4_amended (r : Runner) (k : Option String) :
    (∀ n : Int, CmdTextConfig r k (.num n) =
      Except.error (.typeError "\x27int\x27 object is not iterable")) ∧
    (∀ b, CmdTextConfig r k (.bool b) =
      Except.error (.typeError "\x27bool\x27 object is not iterable")) ∧
    CmdTextConfig r k .null =
      Except.error (.typeError "\x27NoneType\x27 object is not iterable") ∧
    (∀ s, ∃ p, CmdTextConfig r k (.str s) = Except.ok p) ∧
    (∀ kvs, ∃ p, CmdTextConfig r k (.obj kvs) = Except.ok p) ∧
    (∀ xs, ∃ p, CmdTextConfig r k (.arr xs) = Except.ok p) :=
  ⟨fun _ => rfl, fun _ => rfl, rfl, fun _ => ⟨_, rfl⟩, fun _ => ⟨_, rfl⟩, fun _ => ⟨_, rfl⟩⟩

/-- C5 counterexample: parsing the number `5` under key `"k"` raises
`TypeError("Invalid json object: 5")` — the message names the offending
value, but neither the key `"k"` nor the type name `"int"` occurs in
it, contradicting "naming the offending key and the JSON value's type". -/
theorem c5_counterexample :
    ConfigObject.from_json_obj outRunner (some "k") (.num 5) =
      Except.error (.typeError "Invalid json object: 5") ∧
    ¬ List.IsInfix "k".data "Invalid json object: 5".data ∧
    ¬ List.IsInfix "int".data "Invalid json object: 5".data :=
  ⟨rfl, by decide, by decide⟩

/-- C5 amended: `from_json_obj` dispatches purely on the runtime type —
string to entry, array to text block, dict to menu — and every other
type (number, bool, null) fails with a `TypeError` whose message names
the offending value, `"Invalid json object: <value>"`; the key and the
type are not part of the message. -/
theorem c5_amended (r : Runner) (k : Option String) :
    (∀ s, ConfigObject.from_json_obj r k (.str s) = Except.ok (CmdEntryConfig k s, [])) ∧
    (∀ xs, ConfigObject.from_json_obj r k (.arr xs) = CmdTextConfig r k (.arr xs)) ∧
    (∀ kvs, ConfigObject.from_json_obj r k (.obj kvs) = CmdMenuConfig r k (.obj kvs)) ∧
    (∀ n : Int, ConfigObject.from_json_obj r k (.num n) =
      Except.error (.typeError ("Invalid json object: " ++ toString n))) ∧
    (∀ b, ConfigObject.from_json_obj r k (.bool b) =
      Except.error (.typeError ("Invalid json object: " ++ if b then "True" else "False"))) ∧
    ConfigObject.from_json_obj r k .null =
      Except.error (.typeError "Invalid json object: None") :=
  ⟨fun _ => rfl, fun _ => rfl, fun _ => rfl, fun _ => rfl, fun _ => rfl, rfl⟩

theorem intercalate_single (s : String) : String.intercalate "\n" [s] = s := rfl

/-- C6: rendering a string-origin line returns the string verbatim with
no command invoked; rendering a dict-origin line invokes the runner once
per key with `"<key> <value>"` in insertion order and returns the
outputs joined by newlines; nothing is cached — a second render (even
with a runner returning different output) recomputes from the origin. -/
theorem c6_render (r r2 : Runner) (l : TextLine) :
    (∀ s, l.origin = .str s → CmdTextLine.str r l = (s, { l with text := [s] }, [])) ∧
    (∀ kvs, l.origin = .obj kvs →
      CmdTextLine.str r l =
        (String.intercalate "\n" ((objCmdLines kvs).map r),
         { l with text := (objCmdLines kvs).map r }, objCmdLines kvs)) ∧
    (CmdTextLine.str r2 (CmdTextLine.str r l).2.1).1 = (CmdTextLine.str r2 l).1 := by
  refine ⟨?_, ?_, ?_⟩
  · intro s h
    simp [CmdTextLine.str, CmdTextLine.update, h, intercalate_single]
  · intro kvs h
    simp [CmdTextLine.str, CmdTextLine.update, h]
  · cases ho : l.origin <;> simp [CmdTextLine.str, CmdTextLine.update, ho]

/-- C6 witness: rendering a concrete dict-origin line invokes
`"echo hi"` and returns the captured output. -/
theorem c6_render_witness :
    (⟨Json.obj (.cons "echo" (.str "hi") .nil), []⟩ : TextLine).origin =
      Json.obj (.cons "echo" (.str "hi") .nil) ∧
    CmdTextLine.str outRunner ⟨Json.obj (.cons "echo" (.str "hi") .nil), []⟩ =
      ("out", ⟨Json.obj (.cons "echo" (.str "hi") .nil), ["out"]⟩, ["echo hi"]) :=
  ⟨rfl, (c6_render outRunner outRunner ⟨Json.obj (.cons "echo" (.str "hi") .nil), []⟩).2.1 _ rfl⟩

/-- The default tree `reload` installs when no resource exists: a root
menu with the single entry `"T1"` carrying the placeholder command. -/
def defaultRoot : ConfigNode :=
  .menu none (.cons (.entry (some "T1") "(No commands configured)" false) .nil)

theorem reload_default (fs : FileSys) (dec : JsonDecode) (r : Runner) (fp : Option String)
    (rm : ConfigNode) (h : fp = none ∨ ∃ p, fp = some p ∧ fs p = none) :
    CmdConfigBase.reload fs dec r ⟨fp, rm⟩ = (Except.ok (), ⟨fp, defaultRoot⟩, []) := by
  rcases h with h | ⟨p, hp, hfs⟩
  · subst h
    rfl
  · subst hp
    show (match fs p with
      | none => CmdConfigBase._generate_empty_config r ⟨some p, rm⟩
      | some text =>
          match dec text with
          | .error e => (.error e, ⟨some p, rm⟩, [])
          | .ok data => CmdConfigBase._from_json_obj r ⟨some p, rm⟩ data) = _
    rw [hfs]
    rfl

theorem reload_via_decode (fs : FileSys) (dec : JsonDecode) (r : Runner) (fp : Option String)
    (rm : ConfigNode) (p text : String) (h1 : fp = some p) (h2 : fs p = some text) :
    CmdConfigBase.reload fs dec r ⟨fp, rm⟩ =
      (match dec text with
        | .error e => (.error e, ⟨fp, rm⟩, [])
        | .ok data => CmdConfigBase._from_json_obj r ⟨fp, rm⟩ data) := by
  subst h1
  show (match fs p with
    | none => CmdConfigBase._generate_empty_config r ⟨some p, rm⟩
    | some t2 =>
        match dec t2 with
        | .error e => (.error e, ⟨some p, rm⟩, [])
        | .ok data => CmdConfigBase._from_json_obj r ⟨some p, rm⟩ data) = _
  rw [h2]

theorem loads_eq (dec : JsonDecode) (r : Runner) (cfg : CmdConfig) (text : String) :
    CmdConfigBase.loads dec r cfg text =
      (match dec text with
        | Except.error e => (Except.error e, cfg, [])
        | Except.ok data => CmdConfigBase._from_json_obj r cfg data) := rfl

theorem from_json_obj_top_obj (r : Runner) (cfg : CmdConfig) (kvs : JsonObj)
    (q : ConfigNode × List String) (h : CmdMenuConfig r none (.obj kvs) = .ok q) :
    CmdConfigBase._from_json_obj r cfg (.obj kvs) =
      (.ok (), { cfg with root_menu := q.1 }, q.2) := by
  simp [CmdConfigBase._from_json_obj, h]

theorem from_json_obj_top_nonobj (r : Runner) (cfg : CmdConfig) (d : Json)
    (h : ∀ kvs, d ≠ .obj kvs) :
    CmdConfigBase._from_json_obj r cfg d =
      (.error (.typeError ("Invalid json object: " ++ pyStr d)), cfg, []) := by
  cases d <;> first
    | rfl
    | exact absurd rfl (h _)

/-- C7: reloading with a null path, or a path the filesystem does not
know, succeeds and installs the default tree: a root menu whose single
item is the entry `"T1"` with command `"(No commands configured)"` and
a clear read flag, with no command invoked. -/
theorem c7_default (fs : FileSys) (dec : JsonDecode) (r : Runner) (cfg : CmdConfig)
    (h : cfg.file_path = none ∨ ∃ p, cfg.file_path = some p ∧ fs p = none) :
    CmdConfigBase.reload fs dec r cfg =
      (Except.ok (), { cfg with root_menu := defaultRoot }, []) := by
  obtain ⟨fp, rm⟩ := cfg
  exact reload_default fs dec r fp rm h

/-- C7 witness: reload on a concrete tree with a null path, with the
default tree spelled out. -/
theorem c7_default_witness :
    ((⟨none, ConfigNode.menu none .nil⟩ : CmdConfig).file_path = none ∨
      ∃ p, (⟨none, ConfigNode.menu none .nil⟩ : CmdConfig).file_path = some p ∧
        (fun _ => (none : Option String)) p = none) ∧
    CmdConfigBase.reload (fun _ => none) (fun _ => .error (.typeError "x")) outRunner
        ⟨none, ConfigNode.menu none .nil⟩ =
      (Except.ok (),
       ⟨none, .menu none (.cons (.entry (some "T1") "(No commands configured)" false) .nil)⟩,
       []) :=
  ⟨Or.inl rfl,
   c7_default (fun _ => none) (fun _ => .error (.typeError "x")) outRunner
     ⟨none, ConfigNode.menu none .nil⟩ (Or.inl rfl)⟩

/-- C8: for reload on an existing resource and for loads, a decoded
top-level dict replaces the root with the menu built by
`CmdMenuConfig(None, mapping)` (the parse trace is the commands run
building it); any other decoded top-level value fails with the
root-type `TypeError` and leaves the state unchanged; and `loads`
behaves identically whatever the stored file path is. -/
theorem c8_load (fs : FileSys) (dec : JsonDecode) (r : Runner) (cfg : CmdConfig)
    (p text : String) :
    (∀ kvs q, cfg.file_path = some p → fs p = some text → dec text = .ok (.obj kvs) →
      CmdMenuConfig r none (.obj kvs) = .ok q →
      CmdConfigBase.reload fs dec r cfg = (.ok (), { cfg with root_menu := q.1 }, q.2)) ∧
    (∀ d, cfg.file_path = some p → fs p = some text → dec text = .ok d →
      (∀ kvs, d ≠ .obj kvs) →
      CmdConfigBase.reload fs dec r cfg =
        (.error (.typeError ("Invalid json object: " ++ pyStr d)), cfg, [])) ∧
    (∀ kvs q, dec text = .ok (.obj kvs) → CmdMenuConfig r none (.obj kvs) = .ok q →
      CmdConfigBase.loads dec r cfg text = (.ok (), { cfg with root_menu := q.1 }, q.2)) ∧
    (∀ d, dec text = .ok d → (∀ kvs, d ≠ .obj kvs) →
      CmdConfigBase.loads dec r cfg text =
        (.error (.typeError ("Invalid json object: " ++ pyStr d)), cfg, [])) ∧
    (∀ fp fp2 rm,
      (CmdConfigBase.loads dec r ⟨fp, rm⟩ text).1 =
        (CmdConfigBase.loads dec r ⟨fp2, rm⟩ text).1 ∧
      (CmdConfigBase.loads dec r ⟨fp, rm⟩ text).2.1.root_menu =
        (CmdConfigBase.loads dec r ⟨fp2, rm⟩ text).2.1.root_menu ∧
      (CmdConfigBase.loads dec r ⟨fp, rm⟩ text).2.2 =
        (CmdConfigBase.loads dec r ⟨fp2, rm⟩ text).2.2) := by
  refine ⟨?_, ?_, ?_, ?_, ?_⟩
  · intro kvs q h1 h2 h3 h4
    obtain ⟨fp, rm⟩ := cfg
    rw [reload_via_decode fs dec r fp rm p text h1 h2, h3]
    exact from_json_obj_top_obj r ⟨fp, rm⟩ kvs q h4
  · intro d h1 h2 h3 hno
    obtain ⟨fp, rm⟩ := cfg
    rw [reload_via_decode fs dec r fp rm p text h1 h2, h3]
    exact from_json_obj_top_nonobj r ⟨fp, rm⟩ d hno
  · intro kvs q h3 h4
    rw [loads_eq dec r cfg text, h3]
    exact from_json_obj_top_obj r cfg kvs q h4
  · intro d h3 hno
    rw [loads_eq dec r cfg text, h3]
    exact from_json_obj_top_nonobj r cfg d hno
  · intro fp fp2 rm
    cases hd : dec text with
    | error e => simp [CmdConfigBase.loads, hd]
    | ok d =>
      cases d with
      | obj kvs =>
        cases hm : CmdMenuConfig r none (.obj kvs) with
        | error e2 => simp [CmdConfigBase.loads, hd, CmdConfigBase._from_json_obj, hm]
        | ok q => simp [CmdConfigBase.loads, hd, CmdConfigBase._from_json_obj, hm]
      | str s => simp [CmdConfigBase.loads, hd, CmdConfigBase._from_json_obj]
      | num n => simp [CmdConfigBase.loads, hd, CmdConfigBase._from_json_obj]
      | bool b => simp [CmdConfigBase.loads, hd, CmdConfigBase._from_json_obj]
      | null => simp [CmdConfigBase.loads, hd, CmdConfigBase._from_json_obj]
      | arr xs => simp [CmdConfigBase.loads, hd, CmdConfigBase._from_json_obj]

/-- C8 witness: reload through a concrete existing file whose text
decodes to the empty dict installs the empty root menu. -/
theorem c8_load_witness :
    CmdConfigBase.reload (fun q => if q = "cfg.json" then some "T" else none)
        (fun t => if t = "T" then .ok (.obj .nil) else .error (.typeError "bad"))
        outRunner ⟨some "cfg.json", defaultRoot⟩ =
      (.ok (), ⟨some "cfg.json", .menu none .nil⟩, []) :=
  (c8_load (fun q => if q = "cfg.json" then some "T" else none)
      (fun t => if t = "T" then .ok (.obj .nil) else .error (.typeError "bad"))
      outRunner ⟨some "cfg.json", defaultRoot⟩ "cfg.json" "T").1
    .nil (.menu none .nil, []) rfl rfl rfl rfl

/-- C9: `save` fails with the no-source-path `TypeError` exactly when
the file path is null, and with a path it succeeds and overwrites that
path with the JSON encoding of the serialized root; `saves` returns
that encoding for every config, whatever its path. -/
theorem c9_save (fs : FileSys) (enc : JsonEncode) (cfg : CmdConfig) (indent : Nat) :
    ((CmdConfigBase.save fs enc cfg indent).1 = .error (.typeError "No file path specified") ↔
      cfg.file_path = none) ∧
    (∀ p q, cfg.file_path = some p →
      (CmdConfigBase.save fs enc cfg indent).1 = .ok () ∧
      (CmdConfigBase.save fs enc cfg indent).2 q =
        (if q = p then some (CmdConfigBase.saves enc cfg indent) else fs q)) ∧
    CmdConfigBase.saves enc cfg indent =
      enc ((ConfigObject.to_json_obj cfg.root_menu).2) indent := by
  refine ⟨?_, ?_, rfl⟩
  · cases hf : cfg.file_path <;> simp [CmdConfigBase.save, hf]
  · intro p q hp
    simp [CmdConfigBase.save, hp, CmdConfigBase.saves]

/-- C9 witness: saving a concrete config with a path writes the encoded
root at that path. -/
theorem c9_save_witness :
    (⟨some "out.json", defaultRoot⟩ : CmdConfig).file_path = some "out.json" ∧
    (CmdConfigBase.save (fun _ => none) (fun _ _ => "J") ⟨some "out.json", defaultRoot⟩ 2).1 =
      .ok () ∧
    (CmdConfigBase.save (fun _ => none) (fun _ _ => "J") ⟨some "out.json", defaultRoot⟩ 2).2
        "out.json" =
      (if ("out.json" : String) = "out.json" then
        some (CmdConfigBase.saves (fun _ _ => "J") ⟨some "out.json", defaultRoot⟩ 2)
      else (fun _ => none) "out.json") :=
  ⟨rfl,
   (c9_save (fun _ => none) (fun _ _ => "J") ⟨some "out.json", defaultRoot⟩ 2).2.1
     "out.json" "out.json" rfl⟩

theorem from_json_obj_top_fail (r : Runner) (cfg : CmdConfig) (d : Json) (e : PyError) :
    (CmdConfigBase._from_json_obj r cfg d).1 = .error e →
    (CmdConfigBase._from_json_obj r cfg d).2.1 = cfg := by
  intro h
  cases d
  case obj kvs =>
    cases hm : CmdMenuConfig r none (.obj kvs) with
    | error e2 => simp [CmdConfigBase._from_json_obj, hm]
    | ok q =>
      rw [from_json_obj_top_obj r cfg kvs q hm] at h
      exact absurd h (by simp)
  all_goals rfl

/-- C10: if `loads` or `reload` raises any error — decode failure, a
non-dict top level, or a parse failure anywhere in the tree — the
previously installed state (in particular the root) is unchanged; no
partial tree is installed. -/
theorem c10_atomic (fs : FileSys) (dec : JsonDecode) (r : Runner) (cfg : CmdConfig)
    (text : String) (e : PyError) :
    ((CmdConfigBase.loads dec r cfg text).1 = .error e →
      (CmdConfigBase.loads dec r cfg text).2.1 = cfg) ∧
    ((CmdConfigBase.reload fs dec r cfg).1 = .error e →
      (CmdConfigBase.reload fs dec r cfg).2.1 = cfg) := by
  constructor
  · intro h
    cases hd : dec text with
    | error e2 => simp [CmdConfigBase.loads, hd]
    | ok d =>
      have h2 : (CmdConfigBase._from_json_obj r cfg d).1 = .error e := by
        rw [show CmdConfigBase.loads dec r cfg text = CmdConfigBase._from_json_obj r cfg d from by
          simp [CmdConfigBase.loads, hd]] at h
        exact h
      rw [show CmdConfigBase.loads dec r cfg text = CmdConfigBase._from_json_obj r cfg d from by
        simp [CmdConfigBase.loads, hd]]
      exact from_json_obj_top_fail r cfg d e h2
  · intro h
    obtain ⟨fp, rm⟩ := cfg
    cases fp with
    | none =>
      rw [reload_default fs dec r none rm (Or.inl rfl)] at h
      exact absurd h (by simp)
    | some p =>
      cases hfs : fs p with
      | none =>
        rw [reload_default fs dec r (some p) rm (Or.inr ⟨p, rfl, hfs⟩)] at h
        exact absurd h (by simp)
      | some t2 =>
        rw [reload_via_decode fs dec r (some p) rm p t2 rfl hfs] at h ⊢
        cases hd : dec t2 with
        | error e2 => rfl
        | ok d =>
          rw [hd] at h
          exact from_json_obj_top_fail r ⟨some p, rm⟩ d e h

/-- C10 witness: a failed decode on a concrete load leaves the installed
root untouched. -/
theorem c10_atomic_witness :
    (CmdConfigBase.loads (fun _ => .error (.typeError "bad JSON")) outRunner
        ⟨none, defaultRoot⟩ "x").1 = .error (.typeError "bad JSON") ∧
    (CmdConfigBase.loads (fun _ => .error (.typeError "bad JSON")) outRunner
        ⟨none, defaultRoot⟩ "x").2.1 = ⟨none, defaultRoot⟩ :=
  ⟨rfl,
   (c10_atomic (fun _ => none) (fun _ => .error (.typeError "bad JSON")) outRunner
     ⟨none, defaultRoot⟩ "x" (.typeError "bad JSON")).1 rfl⟩
